import Mathlib

/-!
Verification of the streaming relay-and-upload server (src/main.ts) against its
natural-language specification.

The server (a Deno HTTP handler) relays a remote file into an S3-compatible
object store via a chunked multipart upload and streams progress records to the
caller as newline-delimited JSON. The development below is a shallow embedding:

* pure helpers of src/main.ts (getMimeType, the percentage computation, the
  public-link construction) become Lean functions;
* the stateful streaming handler (lines 49-108 of src/main.ts) becomes a
  trace-producing function `handlerTrace` over an explicit environment `Env`
  that records the outcome of every external interaction (JSON body parse,
  remote fetch, the upload library's progress callbacks and final outcome);
* the top-level request router (lines 33-116) becomes `serve`;
* collaborators external to the repository (the ECMAScript builtin
  encodeURIComponent, the AWS lib-storage chunked uploader, the S3 multipart
  protocol) are modelled from the spec at their documented boundary, and each
  such definition says so in its doc comment.

Machine arithmetic: the only numeric computation in the source is
`Math.round((loaded / totalSize) * 100)` on values far below 2^53, where IEEE
rounding cannot disturb integrality of the result's bounds or monotonicity, so
it is embedded as exact rational rounding over Nat (`pctOf`).
-/

/-! ## MimeResolver (src/main.ts lines 20-30) -/

/-- Splitting a character list at every occurrence of `sep`, with the exact
semantics of ECMAScript `String.prototype.split` on a one-character separator:
the result is always non-empty, and empty segments are kept
(so "a..b" gives ["a", "", "b"] and "" gives [""]). -/
def splitOnChar (sep : Char) : List Char → List (List Char)
  | [] => [[]]
  | c :: rest =>
    let r := splitOnChar sep rest
    if c = sep then [] :: r
    else match r with
      | [] => [[c]]
      | g :: gs => (c :: g) :: gs

/-- Embedding of `getMimeType` (src/main.ts lines 20-30): take the last
'.'-separated segment of the filename (`filename.split('.').pop()`),
lowercase it, and look it up in the fixed five-entry video table, defaulting
to "application/octet-stream". -/
def getMimeType (filename : String) : String :=
  match (splitOnChar '.' filename.data).getLast? with
  | none => "application/octet-stream"
  | some extChars =>
    let ext := String.mk (extChars.map Char.toLower)
    if ext = "mp4" then "video/mp4"
    else if ext = "mkv" then "video/x-matroska"
    else if ext = "webm" then "video/webm"
    else if ext = "mov" then "video/quicktime"
    else if ext = "avi" then "video/x-msvideo"
    else "application/octet-stream"

/-- A string contains a dot, i.e. the filename has an extension separator at
all. Used to express the spec's "missing extension" case. -/
def hasDot (s : String) : Bool := s.data.any (fun c => c = '.')

/-! ## Public-link construction (src/main.ts line 99) -/

/-- Modelled from the spec: the uriUnescaped character set of the ECMAScript
builtin `encodeURIComponent` (a collaborator external to src/): ASCII
letters, digits, and - _ . ! ~ * ' ( ) (here by code point: 45 46 33 95 126
42 39 40 41) pass through unencoded. -/
def uriUnescaped (c : Char) : Bool :=
  let n := c.toNat
  (65 ≤ n && n ≤ 90) || (97 ≤ n && n ≤ 122) || (48 ≤ n && n ≤ 57) ||
  n == 45 || n == 46 || n == 33 || n == 95 || n == 126 ||
  n == 42 || n == 39 || n == 40 || n == 41

/-- Uppercase hexadecimal digit for a value below 16. -/
def hexDigit (n : Nat) : Char := if n < 10 then Char.ofNat (48 + n) else Char.ofNat (55 + n)

/-- UTF-8 byte sequence of a Unicode code point (Char excludes surrogates,
exactly as ECMAScript's encoder requires of well-formed input). -/
def utf8Bytes (n : Nat) : List Nat :=
  if n < 128 then [n]
  else if n < 2048 then [192 + n / 64, 128 + n % 64]
  else if n < 65536 then [224 + n / 4096, 128 + (n / 64) % 64, 128 + n % 64]
  else [240 + n / 262144, 128 + (n / 4096) % 64, 128 + (n / 64) % 64, 128 + n % 64]

/-- Percent-escape of one byte: '%' followed by two uppercase hex digits. -/
def pctByteChars (b : Nat) : List Char := ['%', hexDigit (b / 16), hexDigit (b % 16)]

/-- Encoding of one character: kept verbatim if uriUnescaped, otherwise each
UTF-8 byte is percent-escaped. -/
def encodeCharList (c : Char) : List Char :=
  if uriUnescaped c then [c] else ((utf8Bytes c.toNat).map pctByteChars).flatten

/-- Modelled from the spec: the ECMAScript builtin `encodeURIComponent`
(external to src/), used by src/main.ts line 99 to percent-encode the object
name inside the public link. -/
def encodeURIComponent (s : String) : String :=
  String.mk ((s.data.map encodeCharList).flatten)

/-! ## Upload configuration constants -/

/-- Part size configured in src/main.ts line 84: `partSize: 50 * 1024 * 1024`. -/
def partSize_main : Nat := 50 * 1024 * 1024

/-- Concurrency limit configured in src/main.ts line 83: `queueSize: 4`. -/
def queueSize_main : Nat := 4

/-- Part size configured in the unnamed non-streaming variant
(src/unnamed/part_000 line 82): `partSize: 20 * 1024 * 1024`. -/
def partSize_variant : Nat := 20 * 1024 * 1024

/-- Concurrency limit configured in src/unnamed/part_000 line 81: `queueSize: 4`. -/
def queueSize_variant : Nat := 4

/-! ## ChunkedUploader and object-store model -/

/-- Fuel-indexed splitting of `total` bytes into parts of `partSize` bytes
(last part possibly smaller); the fuel only serves structural termination and
`chunkSizes` always supplies enough of it. -/
def chunkSizesFuel (partSize : Nat) : Nat → Nat → List Nat
  | 0, _ => []
  | _ + 1, 0 => []
  | fuel + 1, total =>
    if total ≤ partSize then [total]
    else partSize :: chunkSizesFuel partSize fuel (total - partSize)

/-- Modelled from the spec: the ChunkedUploader (the external AWS lib-storage
`Upload` class configured at src/main.ts lines 73-85) splits the source
stream into parts of the configured fixed size, the last part holding the
remainder. -/
def chunkSizes (partSize total : Nat) : List Nat :=
  chunkSizesFuel partSize total total

/-- Operations of the S3 multipart protocol named by the spec's object-store
interface: initiate-multipart (carrying the content type the source passes),
upload-part (carrying the part's byte count), complete-multipart,
abort-multipart. -/
inductive StoreOp where
  | initiate (contentType : String)
  | uploadPart (size : Nat)
  | complete
  | abort
deriving DecidableEq, Repr

/-- State of the destination key at the object store: `none` while no
complete-multipart has been issued, `some parts` (the assembled part sizes)
once one has. -/
structure Store where
  objectAtKey : Option (List Nat)
deriving DecidableEq, Repr

/-- Modelled from the spec: S3 multipart semantics at the destination key.
Pending parts accumulate invisibly; only complete-multipart materialises an
object at the key; initiate and abort reset the pending parts and leave the
key untouched. -/
def runStore : List StoreOp → List Nat → Store → Store
  | [], _, st => st
  | .initiate _ :: rest, _, st => runStore rest [] st
  | .uploadPart n :: rest, pending, st => runStore rest (pending ++ [n]) st
  | .complete :: rest, pending, _ => runStore rest pending ⟨some pending⟩
  | .abort :: rest, _, st => runStore rest [] st

/-! ## Messages and events of the streaming handler -/

/-- The newline-delimited JSON records the handler can `send`
(src/main.ts lines 59, 91, 100, 103). -/
inductive Msg where
  | progress (pct : Nat)
  | success (link : String)
  | error (msg : String)
deriving DecidableEq, Repr

/-- Terminal records are success and error; progress records are not. -/
def Msg.isTerminal : Msg → Bool
  | .progress _ => false
  | .success _ => true
  | .error _ => true

/-- Observable events of one run of the stream's `start` function: a record
enqueued on the output channel, an invocation of `controller.close()`, the
outbound `fetch`, or an object-store operation issued by the uploader. -/
inductive Ev where
  | send (m : Msg)
  | closeCall
  | fetchCall (url : String)
  | store (op : StoreOp)
deriving DecidableEq, Repr

/-- The record carried by a send event, if any. -/
def Ev.msg? : Ev → Option Msg
  | .send m => some m
  | _ => none

/-- Whether the event is the outbound fetch. -/
def Ev.isFetch : Ev → Bool
  | .fetchCall _ => true
  | _ => false

/-- Whether the event is an object-store operation. -/
def Ev.isStore : Ev → Bool
  | .store _ => true
  | _ => false

/-- The records sent on the output channel during a trace, in order. -/
def sends (t : List Ev) : List Msg := t.filterMap Ev.msg?

/-- How many times `controller.close()` was invoked during a trace. -/
def closeCount (t : List Ev) : Nat := t.count Ev.closeCall

/-- How many outbound fetches a trace performs. -/
def fetchCount (t : List Ev) : Nat := t.countP (fun e => e.isFetch)

/-- How many object-store operations a trace performs. -/
def storeCount (t : List Ev) : Nat := t.countP (fun e => e.isStore)

/-- The object-store operations of a trace, in order. -/
def storeOpsOf (t : List Ev) : List StoreOp :=
  t.filterMap (fun e => match e with | .store op => some op | _ => none)

/-! ## The environment of one handler run -/

/-- The two fields destructured from the request body
(src/main.ts line 56); each may be absent. -/
structure ReqBody where
  remoteUrl : Option String
  customName : Option String
deriving DecidableEq, Repr

/-- Outcome of `fetch(remoteUrl)` as the handler observes it
(src/main.ts lines 65-69): `ok`, presence of a body, and
`Number(headers.get("content-length")) || 0`. -/
structure FetchResult where
  ok : Bool
  hasBody : Bool
  contentLength : Nat
deriving DecidableEq, Repr

/-- Outcome of the external uploader for this run: the actual byte length of
the fetched stream, the `loaded` values its progress callbacks report, whether
`upload.done()` resolves, how many parts completed before a failure, and the
failure's message. -/
structure UploadRun where
  sourceBytes : Nat
  loadedEvents : List Nat
  ok : Bool
  failAfter : Nat
  errMsg : String
deriving DecidableEq, Repr

/-- Everything the environment decides during one run of the handler:
`parsed` is the result of `req.json()` (`none` when it rejects, with
`jsonErrMsg` the raised message), then the fetch outcome and the upload
outcome. -/
structure Env where
  parsed : Option ReqBody
  jsonErrMsg : String
  fetchRes : FetchResult
  run : UploadRun
deriving DecidableEq, Repr

/-- ECMAScript truthiness of an optional string: absent and "" are falsy,
matching `if (!remoteUrl || !customName)` at src/main.ts line 58. -/
def truthy : Option String → Bool
  | none => false
  | some s => s != ""

/-! ## Progress percentage computation (src/main.ts lines 88-93) -/

/-- Embedding of `Math.round((loaded / totalSize) * 100)`
(src/main.ts line 90) as exact round-half-up arithmetic over Nat. -/
def pctOf (totalSize loaded : Nat) : Nat :=
  (200 * loaded + totalSize) / (2 * totalSize)

/-- The guard of the progress callback (src/main.ts line 89):
`totalSize > 0 && progress.loaded` (a zero or absent loaded count is falsy). -/
def emitsProgress (totalSize loaded : Nat) : Bool :=
  (totalSize != 0) && (loaded != 0)

/-- The percentages a session emits: one per loaded value that passes the
guard, in callback order. -/
def progressPcts (totalSize : Nat) (loadedEvents : List Nat) : List Nat :=
  (loadedEvents.filter (fun l => emitsProgress totalSize l)).map (fun l => pctOf totalSize l)

/-- The progress send events of a session, in order. -/
def progressEvents (totalSize : Nat) (loadedEvents : List Nat) : List Ev :=
  (progressPcts totalSize loadedEvents).map (fun p => Ev.send (Msg.progress p))

/-- Modelled from the spec: the progress contract of the external uploader
plus a truthful declared content length — the `loaded` byte counts its
callbacks report are monotonically non-decreasing and never exceed the
declared total size when that size is positive. -/
def UploaderContract (totalSize : Nat) (loadedEvents : List Nat) : Prop :=
  List.Pairwise (· ≤ ·) loadedEvents ∧ ∀ l ∈ loadedEvents, l ≤ totalSize

/-! ## The streaming handler (src/main.ts lines 49-108) -/

/-- Process-level configuration read at startup (src/main.ts lines 5-10):
only the fields the handler's observable behaviour depends on. -/
structure Config where
  bucket : String
  publicDomain : String
  adminPassword : String
deriving DecidableEq, Repr

/-- Store events issued by `upload.done()` for one run: initiate-multipart,
then the part uploads, then — only when the run succeeds — the
complete-multipart call. On failure only the prefix of parts that completed
was issued; the source installs no abort/cleanup, so no abort appears. -/
def uploadStoreEvents (contentType : String) (sourceBytes failAfter : Nat) (ok : Bool) : List Ev :=
  Ev.store (.initiate contentType) ::
    (if ok then
      (chunkSizes partSize_main sourceBytes).map (fun n => Ev.store (.uploadPart n))
        ++ [Ev.store .complete]
    else
      ((chunkSizes partSize_main sourceBytes).take failAfter).map (fun n => Ev.store (.uploadPart n)))

/-- Trace of one run of the ReadableStream `start` function
(src/main.ts lines 50-107), by direct translation of its control flow:

* `req.json()` rejects → the catch block sends the error, the finally block
  closes the channel;
* missing/empty `remoteUrl` or `customName` → send "Missing info", an explicit
  `controller.close()` (line 60), `return` — and then the finally block
  invokes `controller.close()` a second time;
* `fetch` not ok or bodyless → the thrown "Cannot fetch remote url" reaches
  the catch block, which sends it, and the finally block closes;
* otherwise the uploader runs: its store operations and the guarded progress
  sends happen during `upload.done()`, then either the success record with
  the public link (line 100) or the caught upload error is sent, and the
  finally block closes. -/
def handlerTrace (cfg : Config) (env : Env) : List Ev :=
  match env.parsed with
  | none => [.send (.error env.jsonErrMsg), .closeCall]
  | some body =>
    if truthy body.remoteUrl && truthy body.customName then
      .fetchCall (body.remoteUrl.getD "") ::
        (if env.fetchRes.ok && env.fetchRes.hasBody then
          uploadStoreEvents (getMimeType (body.customName.getD ""))
              env.run.sourceBytes env.run.failAfter env.run.ok
            ++ progressEvents env.fetchRes.contentLength env.run.loadedEvents
            ++ (if env.run.ok then
                  [.send (.success (cfg.publicDomain ++ "/"
                      ++ encodeURIComponent (body.customName.getD ""))), .closeCall]
                else [.send (.error env.run.errMsg), .closeCall])
        else [.send (.error "Cannot fetch remote url"), .closeCall])
    else [.send (.error "Missing info"), .closeCall, .closeCall]

/-- The run took the validation-failure branch of src/main.ts line 58. -/
def validationFail (env : Env) : Bool :=
  match env.parsed with
  | none => false
  | some body => !(truthy body.remoteUrl && truthy body.customName)

/-- The run reached the success send of src/main.ts line 100: body parsed,
both fields truthy, fetch ok with a body, and the upload resolved. -/
def successPath (env : Env) : Bool :=
  (match env.parsed with
   | none => false
   | some body => truthy body.remoteUrl && truthy body.customName)
  && (env.fetchRes.ok && env.fetchRes.hasBody)
  && env.run.ok

/-- The progress records of one run, as the trace emits them. -/
def sessionProgressMsgs (env : Env) : List Msg :=
  match env.parsed with
  | none => []
  | some body =>
    if truthy body.remoteUrl && truthy body.customName then
      if env.fetchRes.ok && env.fetchRes.hasBody then
        (progressPcts env.fetchRes.contentLength env.run.loadedEvents).map Msg.progress
      else []
    else []

/-- The unique terminal record of one run. -/
def terminalMsg (cfg : Config) (env : Env) : Msg :=
  match env.parsed with
  | none => .error env.jsonErrMsg
  | some body =>
    if truthy body.remoteUrl && truthy body.customName then
      if env.fetchRes.ok && env.fetchRes.hasBody then
        if env.run.ok then
          .success (cfg.publicDomain ++ "/" ++ encodeURIComponent (body.customName.getD ""))
        else .error env.run.errMsg
      else .error "Cannot fetch remote url"
    else .error "Missing info"

/-! ## The request router (src/main.ts lines 33-116) -/

/-- An incoming HTTP request as the router inspects it, together with the
environment its handler run would observe. -/
structure HttpReq where
  method : String
  path : String
  passParam : Option String
  env : Env
deriving Repr

/-- Body of an HTTP response: the admin HTML page, a plain text, or the
streaming NDJSON body with its event trace. -/
inductive HttpBody where
  | page
  | text (s : String)
  | stream (trace : List Ev)
deriving DecidableEq, Repr

/-- Status, content type and body of an HTTP response. -/
structure HttpResponse where
  status : Nat
  contentType : Option String
  body : HttpBody
deriving DecidableEq, Repr

/-- Embedding of the `Deno.serve` router (src/main.ts lines 33-116):
GET / serves the UI page behind the password gate; POST /api/upload behind
the same gate returns status 200 (the `Response` default) with content type
application/x-ndjson and the streaming body; everything else is 404. -/
def serve (cfg : Config) (r : HttpReq) : HttpResponse :=
  if r.method == "GET" && r.path == "/" then
    if r.passParam != some cfg.adminPassword then ⟨403, none, .text "Unauthorized"⟩
    else ⟨200, some "text/html", .page⟩
  else if r.method == "POST" && r.path == "/api/upload" then
    if r.passParam != some cfg.adminPassword then ⟨403, none, .text "Unauthorized"⟩
    else ⟨200, some "application/x-ndjson", .stream (handlerTrace cfg r.env)⟩
  else ⟨404, none, .text "Not Found"⟩

/-! ## Helper lemmas -/

theorem pctOf_mono (t l1 l2 : Nat) (h : l1 ≤ l2) : pctOf t l1 ≤ pctOf t l2 :=
  Nat.div_le_div_right (by omega)

theorem pctOf_le_100 (t l : Nat) (ht : 0 < t) (h : l ≤ t) : pctOf t l ≤ 100 := by
  have h2 : 0 < 2 * t := by omega
  have hlt : 200 * l + t < 101 * (2 * t) := by omega
  have := (Nat.div_lt_iff_lt_mul h2).mpr hlt
  unfold pctOf
  omega

theorem chunkSizesFuel_sum (p : Nat) (hp : 0 < p) :
    ∀ fuel total, total ≤ fuel → (chunkSizesFuel p fuel total).sum = total := by
  intro fuel
  induction fuel with
  | zero =>
    intro total h
    have h0 : total = 0 := by omega
    subst h0
    rfl
  | succ n ih =>
    intro total h
    cases total with
    | zero => rfl
    | succ t =>
      rw [show chunkSizesFuel p (n + 1) (t + 1)
            = if t + 1 ≤ p then [t + 1] else p :: chunkSizesFuel p n (t + 1 - p) from rfl]
      split
      · simp
      · rename_i hgt
        rw [List.sum_cons, ih (t + 1 - p) (by omega)]
        omega

theorem chunkSizes_sum (p total : Nat) (hp : 0 < p) : (chunkSizes p total).sum = total :=
  chunkSizesFuel_sum p hp total total (Nat.le_refl total)

theorem sends_uploadStoreEvents (ct : String) (sb fa : Nat) (ok : Bool) :
    sends (uploadStoreEvents ct sb fa ok) = [] := by
  cases ok <;>
    simp [uploadStoreEvents, sends, Ev.msg?, ← List.map_take, List.filterMap_map,
      Function.comp]

theorem sends_progressEvents (ts : Nat) (evs : List Nat) :
    sends (progressEvents ts evs) = (progressPcts ts evs).map Msg.progress := by
  unfold sends progressEvents
  rw [List.filterMap_map]
  rw [show Ev.msg? ∘ (fun p => Ev.send (Msg.progress p)) = some ∘ Msg.progress from rfl]
  exact List.filterMap_eq_map Msg.progress ▸ rfl

theorem sends_append (a b : List Ev) : sends (a ++ b) = sends a ++ sends b :=
  List.filterMap_append a b Ev.msg?

theorem sends_cons_send (m : Msg) (t : List Ev) : sends (.send m :: t) = m :: sends t := rfl

theorem sends_cons_close (t : List Ev) : sends (.closeCall :: t) = sends t := rfl

theorem sends_cons_fetch (u : String) (t : List Ev) : sends (.fetchCall u :: t) = sends t := rfl

theorem sends_cons_store (op : StoreOp) (t : List Ev) : sends (.store op :: t) = sends t := rfl

theorem sends_nil : sends [] = [] := rfl

theorem count_close_map_store (f : Nat → StoreOp) (l : List Nat) :
    List.count Ev.closeCall (l.map (fun n => Ev.store (f n))) = 0 := by
  rw [List.count_eq_zero]
  simp

theorem count_close_map_progress (l : List Nat) :
    List.count Ev.closeCall (l.map (fun p => Ev.send (Msg.progress p))) = 0 := by
  rw [List.count_eq_zero]
  simp

theorem sends_handlerTrace (cfg : Config) (env : Env) :
    sends (handlerTrace cfg env) = sessionProgressMsgs env ++ [terminalMsg cfg env] := by
  obtain ⟨parsed, jmsg, fres, urun⟩ := env
  cases parsed with
  | none => simp [handlerTrace, sessionProgressMsgs, terminalMsg, sends, Ev.msg?]
  | some body =>
    cases hv : truthy body.remoteUrl && truthy body.customName with
    | false => simp [handlerTrace, sessionProgressMsgs, terminalMsg, sends, Ev.msg?, hv]
    | true =>
      cases hf : fres.ok && fres.hasBody with
      | false => simp [handlerTrace, sessionProgressMsgs, terminalMsg, sends, Ev.msg?, hv, hf]
      | true =>
        cases ho : urun.ok <;>
          simp [handlerTrace, sessionProgressMsgs, terminalMsg, hv, hf, ho,
            sends_append, sends_cons_send, sends_cons_close, sends_cons_fetch,
            sends_cons_store, sends_nil, sends_uploadStoreEvents, sends_progressEvents]

theorem terminalMsg_isTerminal (cfg : Config) (env : Env) :
    (terminalMsg cfg env).isTerminal = true := by
  obtain ⟨parsed, jmsg, fres, urun⟩ := env
  cases parsed with
  | none => rfl
  | some body =>
    cases hv : truthy body.remoteUrl && truthy body.customName with
    | false => simp [terminalMsg, hv, Msg.isTerminal]
    | true =>
      cases hf : fres.ok && fres.hasBody with
      | false => simp [terminalMsg, hv, hf, Msg.isTerminal]
      | true => cases ho : urun.ok <;> simp [terminalMsg, hv, hf, ho, Msg.isTerminal]

theorem sessionProgressMsgs_not_terminal (env : Env) :
    ∀ m ∈ sessionProgressMsgs env, m.isTerminal = false := by
  intro m hm
  obtain ⟨parsed, jmsg, fres, urun⟩ := env
  cases parsed with
  | none => simp [sessionProgressMsgs] at hm
  | some body =>
    simp only [sessionProgressMsgs] at hm
    split at hm
    · split at hm
      · obtain ⟨p, _, hp⟩ := List.mem_map.mp hm
        subst hp
        rfl
      · simp at hm
    · simp at hm

theorem closeCount_handlerTrace (cfg : Config) (env : Env) :
    closeCount (handlerTrace cfg env) = if validationFail env then 2 else 1 := by
  obtain ⟨parsed, jmsg, fres, urun⟩ := env
  cases parsed with
  | none => rfl
  | some body =>
    cases hv : truthy body.remoteUrl && truthy body.customName with
    | false => simp [handlerTrace, validationFail, closeCount, hv]
    | true =>
      cases hf : fres.ok && fres.hasBody with
      | false => simp [handlerTrace, validationFail, closeCount, hv, hf]
      | true =>
        cases ho : urun.ok <;>
          simp [handlerTrace, validationFail, closeCount, hv, hf, ho,
            uploadStoreEvents, progressEvents, List.count_append, ← List.map_take,
            count_close_map_store, count_close_map_progress]

theorem getLast?_trace_shape (x : Ev) (a b : List Ev) (m : Msg) :
    (x :: (a ++ (b ++ [Ev.send m, Ev.closeCall]))).getLast? = some Ev.closeCall := by
  cases ha : a ++ (b ++ [Ev.send m, Ev.closeCall]) with
  | nil => simp at ha
  | cons y t =>
    rw [List.getLast?_cons_cons, ← ha, ← List.append_assoc, List.getLast?_append_cons,
      List.getLast?_cons_cons]
    rfl

theorem handlerTrace_getLast (cfg : Config) (env : Env) :
    (handlerTrace cfg env).getLast? = some Ev.closeCall := by
  obtain ⟨parsed, jmsg, fres, urun⟩ := env
  cases parsed with
  | none => rfl
  | some body =>
    cases hv : truthy body.remoteUrl && truthy body.customName with
    | false => simp [handlerTrace, hv]
    | true =>
      cases hf : fres.ok && fres.hasBody with
      | false => simp [handlerTrace, hv, hf]
      | true =>
        cases ho : urun.ok <;>
          simp [handlerTrace, hv, hf, ho, getLast?_trace_shape]

theorem fetchCount_append (a b : List Ev) : fetchCount (a ++ b) = fetchCount a + fetchCount b :=
  List.countP_append _ a b

theorem fetchCount_cons_fetch (u : String) (t : List Ev) :
    fetchCount (.fetchCall u :: t) = fetchCount t + 1 := by
  simp [fetchCount, List.countP_cons, Ev.isFetch]

theorem fetchCount_map_store (f : Nat → StoreOp) (l : List Nat) :
    fetchCount (l.map (fun n => Ev.store (f n))) = 0 := by
  simp [fetchCount, List.countP_map, Function.comp, List.countP_eq_zero, Ev.isFetch]

theorem fetchCount_map_progress (l : List Nat) :
    fetchCount (l.map (fun p => Ev.send (Msg.progress p))) = 0 := by
  simp [fetchCount, List.countP_map, Function.comp, List.countP_eq_zero, Ev.isFetch]

theorem fetchCount_uploadStoreEvents (ct : String) (sb fa : Nat) (ok : Bool) :
    fetchCount (uploadStoreEvents ct sb fa ok) = 0 := by
  cases ok <;>
    simp [uploadStoreEvents, ← List.map_take, fetchCount_append, fetchCount_map_store,
      fetchCount, List.countP_cons, Ev.isFetch, List.countP_map, Function.comp,
      List.countP_eq_zero]

theorem fetchCount_progressEvents (ts : Nat) (evs : List Nat) :
    fetchCount (progressEvents ts evs) = 0 := by
  simp [progressEvents, fetchCount_map_progress]

theorem fetchCount_pair (m : Msg) : fetchCount [Ev.send m, Ev.closeCall] = 0 := rfl

theorem fetchCount_handlerTrace (cfg : Config) (env : Env) :
    fetchCount (handlerTrace cfg env) ≤ 1 := by
  obtain ⟨parsed, jmsg, fres, urun⟩ := env
  cases parsed with
  | none => simp [handlerTrace, fetchCount, Ev.isFetch]
  | some body =>
    cases hv : truthy body.remoteUrl && truthy body.customName with
    | false => simp [handlerTrace, fetchCount, Ev.isFetch, hv]
    | true =>
      cases hf : fres.ok && fres.hasBody with
      | false => simp [handlerTrace, fetchCount, List.countP_cons, Ev.isFetch, hv, hf]
      | true =>
        cases ho : urun.ok <;>
          simp [handlerTrace, hv, hf, ho, fetchCount_cons_fetch, fetchCount_append,
            fetchCount_uploadStoreEvents, fetchCount_progressEvents, fetchCount_pair]

theorem storeOpsOf_append (a b : List Ev) : storeOpsOf (a ++ b) = storeOpsOf a ++ storeOpsOf b :=
  List.filterMap_append a b _

theorem storeOpsOf_cons_store (op : StoreOp) (t : List Ev) :
    storeOpsOf (.store op :: t) = op :: storeOpsOf t := rfl

theorem storeOpsOf_cons_fetch (u : String) (t : List Ev) :
    storeOpsOf (.fetchCall u :: t) = storeOpsOf t := rfl

theorem storeOpsOf_pair (m : Msg) : storeOpsOf [Ev.send m, Ev.closeCall] = [] := rfl

theorem storeOpsOf_map_uploadPart (l : List Nat) :
    storeOpsOf (l.map (fun n => Ev.store (StoreOp.uploadPart n))) = l.map StoreOp.uploadPart := by
  induction l with
  | nil => rfl
  | cons a t ih => rw [List.map_cons, storeOpsOf_cons_store, ih, List.map_cons]

theorem storeOpsOf_map_progress (l : List Nat) :
    storeOpsOf (l.map (fun p => Ev.send (Msg.progress p))) = [] := by
  induction l with
  | nil => rfl
  | cons a t ih =>
    rw [List.map_cons]
    rw [show storeOpsOf (Ev.send (Msg.progress a) :: t.map (fun p => Ev.send (Msg.progress p)))
          = storeOpsOf (t.map (fun p => Ev.send (Msg.progress p))) from rfl]
    exact ih

theorem storeOpsOf_uploadStoreEvents (ct : String) (sb fa : Nat) (ok : Bool) :
    storeOpsOf (uploadStoreEvents ct sb fa ok)
      = StoreOp.initiate ct ::
          (if ok then (chunkSizes partSize_main sb).map StoreOp.uploadPart ++ [StoreOp.complete]
           else ((chunkSizes partSize_main sb).take fa).map StoreOp.uploadPart) := by
  cases ok with
  | true =>
    have h1 : uploadStoreEvents ct sb fa true
        = Ev.store (StoreOp.initiate ct)
          :: ((chunkSizes partSize_main sb).map (fun n => Ev.store (StoreOp.uploadPart n))
            ++ [Ev.store StoreOp.complete]) := by
      simp [uploadStoreEvents]
    rw [h1, storeOpsOf_cons_store, storeOpsOf_append, storeOpsOf_map_uploadPart]
    simp [storeOpsOf]
  | false =>
    have h1 : uploadStoreEvents ct sb fa false
        = Ev.store (StoreOp.initiate ct)
          :: ((chunkSizes partSize_main sb).take fa).map (fun n => Ev.store (StoreOp.uploadPart n)) := by
      simp [uploadStoreEvents]
    rw [h1, storeOpsOf_cons_store, storeOpsOf_map_uploadPart]
    simp

theorem storeOpsOf_progressEvents (ts : Nat) (evs : List Nat) :
    storeOpsOf (progressEvents ts evs) = [] := by
  simp [progressEvents, storeOpsOf_map_progress]

theorem runStore_parts (ps : List Nat) (rest : List StoreOp) (acc : List Nat) (st : Store) :
    runStore (ps.map StoreOp.uploadPart ++ rest) acc st = runStore rest (acc ++ ps) st := by
  induction ps generalizing acc with
  | nil => simp
  | cons a t ih => simp [runStore, ih]

theorem runStore_success_ops (ct : String) (ps : List Nat) (st : Store) :
    runStore (StoreOp.initiate ct :: (ps.map StoreOp.uploadPart ++ [StoreOp.complete])) [] st
      = ⟨some ps⟩ := by
  rw [show runStore (StoreOp.initiate ct :: (ps.map StoreOp.uploadPart ++ [StoreOp.complete])) [] st
        = runStore (ps.map StoreOp.uploadPart ++ [StoreOp.complete]) [] st from rfl]
  rw [runStore_parts]
  rfl

theorem runStore_failure_ops (ct : String) (ps : List Nat) (st : Store) :
    runStore (StoreOp.initiate ct :: ps.map StoreOp.uploadPart) [] st = st := by
  rw [show runStore (StoreOp.initiate ct :: ps.map StoreOp.uploadPart) [] st
        = runStore (ps.map StoreOp.uploadPart) [] st from rfl]
  rw [show ps.map StoreOp.uploadPart = ps.map StoreOp.uploadPart ++ [] by simp, runStore_parts]
  rfl

theorem objectAtKey_handlerTrace (cfg : Config) (env : Env) :
    runStore (storeOpsOf (handlerTrace cfg env)) [] ⟨none⟩
      = if successPath env then ⟨some (chunkSizes partSize_main env.run.sourceBytes)⟩
        else ⟨none⟩ := by
  obtain ⟨parsed, jmsg, fres, urun⟩ := env
  cases parsed with
  | none => rfl
  | some body =>
    cases hv : truthy body.remoteUrl && truthy body.customName with
    | false => simp [handlerTrace, successPath, storeOpsOf, runStore, hv]
    | true =>
      cases hf : fres.ok && fres.hasBody with
      | false => simp [handlerTrace, successPath, storeOpsOf, runStore, hv, hf]
      | true =>
        cases ho : urun.ok with
        | true =>
          simp [handlerTrace, successPath, hv, hf, ho, storeOpsOf_cons_fetch,
            storeOpsOf_append, storeOpsOf_uploadStoreEvents, storeOpsOf_progressEvents,
            storeOpsOf_pair, runStore_success_ops]
        | false =>
          simp only [handlerTrace, successPath, hv, hf, ho]
          simp [storeOpsOf_cons_fetch, storeOpsOf_append, storeOpsOf_uploadStoreEvents,
            storeOpsOf_progressEvents, storeOpsOf_pair]
          rw [← List.map_take, runStore_failure_ops]

theorem progressPcts_le_100 (ts : Nat) (evs : List Nat) (h : ∀ l ∈ evs, l ≤ ts) :
    ∀ p ∈ progressPcts ts evs, p ≤ 100 := by
  intro p hp
  simp only [progressPcts, List.mem_map, List.mem_filter] at hp
  obtain ⟨l, ⟨hl, hg⟩, rfl⟩ := hp
  have ht : 0 < ts := by
    rcases Nat.eq_zero_or_pos ts with h0 | h0
    · subst h0
      simp [emitsProgress] at hg
    · exact h0
  exact pctOf_le_100 ts l ht (h l hl)

theorem progressPcts_pairwise (ts : Nat) (evs : List Nat)
    (h : List.Pairwise (· ≤ ·) evs) :
    List.Pairwise (· ≤ ·) (progressPcts ts evs) := by
  unfold progressPcts
  exact (h.filter _).map _ (fun a b hab => pctOf_mono ts a b hab)

theorem sessionProgressMsgs_mem (env : Env) (m : Msg) (hm : m ∈ sessionProgressMsgs env) :
    ∃ l ∈ env.run.loadedEvents, env.fetchRes.contentLength ≠ 0 ∧ l ≠ 0
      ∧ m = Msg.progress (pctOf env.fetchRes.contentLength l) := by
  obtain ⟨parsed, jmsg, fres, urun⟩ := env
  cases parsed with
  | none => simp [sessionProgressMsgs] at hm
  | some body =>
    simp only [sessionProgressMsgs] at hm
    split at hm
    · split at hm
      · simp only [progressPcts, List.mem_map, List.mem_filter] at hm
        obtain ⟨p, ⟨l, ⟨hl, hg⟩, rfl⟩, rfl⟩ := hm
        simp only [emitsProgress, Bool.and_eq_true, bne_iff_ne, ne_eq] at hg
        exact ⟨l, hl, hg.1, hg.2, rfl⟩
      · simp at hm
    · simp at hm

theorem progressPcts_zero (evs : List Nat) : progressPcts 0 evs = [] := by
  simp [progressPcts, emitsProgress]

theorem sessionProgressMsgs_zero (env : Env) (h : env.fetchRes.contentLength = 0) :
    sessionProgressMsgs env = [] := by
  obtain ⟨parsed, jmsg, fres, urun⟩ := env
  cases parsed with
  | none => rfl
  | some body =>
    simp only at h
    simp [sessionProgressMsgs, h, progressPcts_zero]

theorem terminalMsg_error_of_failure (cfg : Config) (env : Env)
    (h : successPath env = false) : ∃ e, terminalMsg cfg env = Msg.error e := by
  obtain ⟨parsed, jmsg, fres, urun⟩ := env
  cases parsed with
  | none => exact ⟨jmsg, rfl⟩
  | some body =>
    cases hv : truthy body.remoteUrl && truthy body.customName with
    | false => simp [terminalMsg, hv]
    | true =>
      cases hf : fres.ok && fres.hasBody with
      | false => simp [terminalMsg, hv, hf]
      | true =>
        cases ho : urun.ok with
        | false => simp [terminalMsg, hv, hf, ho]
        | true => simp [successPath, hv, hf, ho] at h

/-! ## Concrete runs used by counterexamples and witnesses -/

/-- Concrete configuration for concrete runs. -/
def cfgEx : Config := ⟨"videos", "https://pub.example.com", "123"⟩

/-- A request body whose customName is absent: the validation-failure path. -/
def envValFail : Env :=
  ⟨some ⟨some "http://files.example.com/a.mp4", none⟩, "", ⟨true, true, 0⟩,
   ⟨0, [], true, 0, ""⟩⟩

/-- A run whose remote fetch returns a non-success status. -/
def envFetchFail : Env :=
  ⟨some ⟨some "http://files.example.com/a.mp4", some "a.mp4"⟩, "",
   ⟨false, true, 0⟩, ⟨0, [], false, 0, "x"⟩⟩

/-- A fully successful run with three progress callbacks. -/
def envSuccess : Env :=
  ⟨some ⟨some "http://files.example.com/a.mp4", some "my clip.mp4"⟩, "",
   ⟨true, true, 200⟩, ⟨200, [50, 100, 200], true, 0, ""⟩⟩

/-- A run that fails during the upload stage after one part. -/
def envUploadFail : Env :=
  ⟨some ⟨some "http://files.example.com/a.mp4", some "a.mp4"⟩, "",
   ⟨true, true, 200⟩, ⟨200, [50], false, 1, "part failed"⟩⟩

/-! ## Claims -/

/-- C1, counterexample: the claim says the output channel is closed exactly
once on every exit path, including the validation-failure path; but on the
validation-failure path the handler invokes `controller.close()` at
src/main.ts line 60 and then again in the finally block at line 105, so the
close count there is 2, not 1. -/
theorem c1_close_once_counterexample :
    ¬ (∀ cfg env, closeCount (handlerTrace cfg env) = 1) := by
  intro h
  have h2 := h cfgEx envValFail
  revert h2
  decide

/-- C1, amended: on every run, exactly one terminal record is sent, it is the
last record on the output channel, the trace ends with a close of the channel,
and `controller.close()` is invoked exactly once on every exit path except the
validation-failure path, where it is invoked twice (the second invocation is
redundant: the channel is already closed). -/
theorem c1_one_terminal_last_and_close (cfg : Config) (env : Env) :
    (sends (handlerTrace cfg env)).countP (fun m => m.isTerminal) = 1
    ∧ (sends (handlerTrace cfg env)).getLast? = some (terminalMsg cfg env)
    ∧ (terminalMsg cfg env).isTerminal = true
    ∧ (handlerTrace cfg env).getLast? = some Ev.closeCall
    ∧ closeCount (handlerTrace cfg env) = (if validationFail env then 2 else 1) := by
  refine ⟨?_, ?_, terminalMsg_isTerminal cfg env, handlerTrace_getLast cfg env,
    closeCount_handlerTrace cfg env⟩
  · rw [sends_handlerTrace, List.countP_append]
    have h0 : (sessionProgressMsgs env).countP (fun m => m.isTerminal) = 0 :=
      List.countP_eq_zero.mpr (fun m hm => by
        simp [sessionProgressMsgs_not_terminal env m hm])
    rw [h0]
    simp [List.countP_cons, terminalMsg_isTerminal]
  · rw [sends_handlerTrace]
    exact List.getLast?_concat _

/-- C2: assuming the external uploader's progress contract and a truthful
declared content length (loaded counts monotone and bounded by the total),
every emitted percentage is at most 100 (and is a Nat, hence at least 0), and
the emitted percentage sequence is monotonically non-decreasing. -/
theorem c2_progress_bounded_monotone (ts : Nat) (evs : List Nat)
    (h : UploaderContract ts evs) :
    (∀ p ∈ progressPcts ts evs, p ≤ 100)
    ∧ List.Pairwise (· ≤ ·) (progressPcts ts evs) :=
  ⟨progressPcts_le_100 ts evs h.2, progressPcts_pairwise ts evs h.1⟩

/-- C2 witness: a concrete session with total size 200 and loaded counts
50, 100, 200 satisfies the contract and gets bounded, monotone percentages. -/
theorem c2_progress_bounded_monotone_witness :
    UploaderContract 200 [50, 100, 200]
    ∧ ((∀ p ∈ progressPcts 200 [50, 100, 200], p ≤ 100)
        ∧ List.Pairwise (· ≤ ·) (progressPcts 200 [50, 100, 200])) :=
  ⟨⟨by decide, by decide⟩,
   c2_progress_bounded_monotone 200 [50, 100, 200] ⟨by decide, by decide⟩⟩

/-- C3, counterexample: src/main.ts line 84 configures a part size of
50 MB, not the claimed 20 MB, so a 100 MB resource is uploaded as 2 parts,
not at least 5. -/
theorem c3_part_size_counterexample :
    partSize_main ≠ 20 * 1024 * 1024
    ∧ (chunkSizes partSize_main (100 * 1024 * 1024)).length < 5 := by
  constructor <;> decide

/-- C3, amended: src/main.ts configures concurrency 4 and part size 50 MB, so
a 100 MB resource is uploaded as exactly 2 parts whose sizes sum to exactly
100 MB; the unnamed variant (src/unnamed/part_000) configures concurrency 4
and part size 20 MB, which gives exactly 5 parts summing to 100 MB. -/
theorem c3_chunking_configuration :
    queueSize_main = 4 ∧ partSize_main = 50 * 1024 * 1024
    ∧ (chunkSizes partSize_main (100 * 1024 * 1024)).length = 2
    ∧ (chunkSizes partSize_main (100 * 1024 * 1024)).sum = 100 * 1024 * 1024
    ∧ queueSize_variant = 4 ∧ partSize_variant = 20 * 1024 * 1024
    ∧ (chunkSizes partSize_variant (100 * 1024 * 1024)).length = 5
    ∧ (chunkSizes partSize_variant (100 * 1024 * 1024)).sum = 100 * 1024 * 1024 := by
  refine ⟨rfl, rfl, ?_, ?_, rfl, rfl, ?_, ?_⟩ <;> decide

/-- C4, counterexample: the claim says a progress record is emitted only when
its percentage strictly increases the previously emitted one, but the handler
(src/main.ts lines 88-93) performs no deduplication: two callbacks with the
same loaded count (allowed by the uploader contract) produce two identical
percentage records, so the emitted sequence need not be strictly increasing. -/
theorem c4_strict_increase_counterexample :
    ¬ (∀ ts evs, UploaderContract ts evs
        → List.Pairwise (· < ·) (progressPcts ts evs)) := by
  intro h
  have h2 := h 200 [100, 100] ⟨by decide, by decide⟩
  revert h2
  decide

/-- C4, amended: a progress record is emitted only when the declared total
size is nonzero and the reported loaded count is nonzero (duplicate
percentages may be re-emitted); when the remote source declares no content
length, zero progress records are emitted, and on every run the terminal
record still arrives as the last record sent. -/
theorem c4_progress_emission (cfg : Config) (env : Env) :
    (env.fetchRes.contentLength = 0 → sessionProgressMsgs env = [])
    ∧ (∀ m ∈ sessionProgressMsgs env, ∃ l ∈ env.run.loadedEvents,
        env.fetchRes.contentLength ≠ 0 ∧ l ≠ 0
          ∧ m = Msg.progress (pctOf env.fetchRes.contentLength l))
    ∧ (sends (handlerTrace cfg env)).getLast? = some (terminalMsg cfg env)
    ∧ (terminalMsg cfg env).isTerminal = true := by
  refine ⟨sessionProgressMsgs_zero env, sessionProgressMsgs_mem env, ?_,
    terminalMsg_isTerminal cfg env⟩
  rw [sends_handlerTrace]
  exact List.getLast?_concat _

/-- C5: over the whole handler trace interpreted against S3 multipart
semantics from an empty destination key, the key holds a completed object
exactly when the run succeeded, that object's parts are the chunking of the
full source, and the part sizes sum to exactly the source's byte count; on
every failing path (validation, fetch, or any upload-stage failure) the key
holds nothing. -/
theorem c5_no_partial_object (cfg : Config) (env : Env) :
    (runStore (storeOpsOf (handlerTrace cfg env)) [] ⟨none⟩).objectAtKey
      = (if successPath env then some (chunkSizes partSize_main env.run.sourceBytes)
         else none)
    ∧ (chunkSizes partSize_main env.run.sourceBytes).sum = env.run.sourceBytes := by
  constructor
  · cases hs : successPath env <;> simp [objectAtKey_handlerTrace, hs]
  · exact chunkSizes_sum _ _ (by decide)

/-- C6: when the remote fetch returns a non-success status or a bodyless
response, the whole trace is exactly one fetch call, one failure terminal
record, and one close — a single fetch attempt with no retry, no store
operation, and nothing created at the destination key. -/
theorem c6_fetch_failure (cfg : Config) (env : Env) (body : ReqBody)
    (h1 : env.parsed = some body)
    (h2 : (truthy body.remoteUrl && truthy body.customName) = true)
    (h3 : (env.fetchRes.ok && env.fetchRes.hasBody) = false) :
    handlerTrace cfg env
      = [.fetchCall (body.remoteUrl.getD ""), .send (.error "Cannot fetch remote url"),
         .closeCall]
    ∧ fetchCount (handlerTrace cfg env) = 1
    ∧ storeCount (handlerTrace cfg env) = 0
    ∧ (runStore (storeOpsOf (handlerTrace cfg env)) [] ⟨none⟩).objectAtKey = none := by
  have ht : handlerTrace cfg env
      = [.fetchCall (body.remoteUrl.getD ""), .send (.error "Cannot fetch remote url"),
         .closeCall] := by
    unfold handlerTrace
    rw [h1]
    simp [h2, h3]
  refine ⟨ht, ?_, ?_, ?_⟩ <;> rw [ht] <;> rfl

/-- C6 witness: a concrete run whose fetch has ok = false. -/
theorem c6_fetch_failure_witness :
    handlerTrace cfgEx envFetchFail
      = [.fetchCall "http://files.example.com/a.mp4",
         .send (.error "Cannot fetch remote url"), .closeCall]
    ∧ fetchCount (handlerTrace cfgEx envFetchFail) = 1
    ∧ storeCount (handlerTrace cfgEx envFetchFail) = 0
    ∧ (runStore (storeOpsOf (handlerTrace cfgEx envFetchFail)) [] ⟨none⟩).objectAtKey
        = none :=
  c6_fetch_failure cfgEx envFetchFail
    ⟨some "http://files.example.com/a.mp4", some "a.mp4"⟩ rfl (by decide) rfl

/-- C7: when either field is absent from the parsed request body, the trace
contains no fetch call and no store operation at all: it is exactly the
"Missing info" error record followed by the channel close (invoked twice on
this path), the error record is the very first record, and nothing is created
at the destination key. -/
theorem c7_validation_no_io (cfg : Config) (env : Env) (body : ReqBody)
    (h1 : env.parsed = some body)
    (h2 : body.remoteUrl = none ∨ body.customName = none) :
    handlerTrace cfg env = [.send (.error "Missing info"), .closeCall, .closeCall]
    ∧ fetchCount (handlerTrace cfg env) = 0
    ∧ storeCount (handlerTrace cfg env) = 0
    ∧ (sends (handlerTrace cfg env)).head? = some (.error "Missing info")
    ∧ (runStore (storeOpsOf (handlerTrace cfg env)) [] ⟨none⟩).objectAtKey = none := by
  have hv : (truthy body.remoteUrl && truthy body.customName) = false := by
    rcases h2 with h | h <;> simp [h, truthy]
  have ht : handlerTrace cfg env
      = [.send (.error "Missing info"), .closeCall, .closeCall] := by
    unfold handlerTrace
    rw [h1]
    simp [hv]
  refine ⟨ht, ?_, ?_, ?_, ?_⟩ <;> rw [ht] <;> rfl

/-- C7 witness: a concrete parsed body whose customName is absent. -/
theorem c7_validation_no_io_witness :
    handlerTrace cfgEx envValFail = [.send (.error "Missing info"), .closeCall, .closeCall]
    ∧ fetchCount (handlerTrace cfgEx envValFail) = 0
    ∧ storeCount (handlerTrace cfgEx envValFail) = 0
    ∧ (sends (handlerTrace cfgEx envValFail)).head? = some (.error "Missing info")
    ∧ (runStore (storeOpsOf (handlerTrace cfgEx envValFail)) [] ⟨none⟩).objectAtKey
        = none :=
  c7_validation_no_io cfgEx envValFail
    ⟨some "http://files.example.com/a.mp4", none⟩ rfl (Or.inr rfl)

/-- C8, counterexample: the claim says a missing extension yields the generic
octet-stream type, but for the dotless filename "mp4" the code takes the
whole name as the trailing segment and returns "video/mp4". -/
theorem c8_dotless_counterexample :
    hasDot "mp4" = false ∧ getMimeType "mp4" = "video/mp4"
    ∧ getMimeType "mp4" ≠ "application/octet-stream" := by
  refine ⟨?_, ?_, ?_⟩ <;> decide

theorem mimeTable_cases (ext : String) :
    (if ext = "mp4" then "video/mp4"
     else if ext = "mkv" then "video/x-matroska"
     else if ext = "webm" then "video/webm"
     else if ext = "mov" then "video/quicktime"
     else if ext = "avi" then "video/x-msvideo"
     else "application/octet-stream") = "video/mp4"
    ∨ (if ext = "mp4" then "video/mp4"
     else if ext = "mkv" then "video/x-matroska"
     else if ext = "webm" then "video/webm"
     else if ext = "mov" then "video/quicktime"
     else if ext = "avi" then "video/x-msvideo"
     else "application/octet-stream") = "video/x-matroska"
    ∨ (if ext = "mp4" then "video/mp4"
     else if ext = "mkv" then "video/x-matroska"
     else if ext = "webm" then "video/webm"
     else if ext = "mov" then "video/quicktime"
     else if ext = "avi" then "video/x-msvideo"
     else "application/octet-stream") = "video/webm"
    ∨ (if ext = "mp4" then "video/mp4"
     else if ext = "mkv" then "video/x-matroska"
     else if ext = "webm" then "video/webm"
     else if ext = "mov" then "video/quicktime"
     else if ext = "avi" then "video/x-msvideo"
     else "application/octet-stream") = "video/quicktime"
    ∨ (if ext = "mp4" then "video/mp4"
     else if ext = "mkv" then "video/x-matroska"
     else if ext = "webm" then "video/webm"
     else if ext = "mov" then "video/quicktime"
     else if ext = "avi" then "video/x-msvideo"
     else "application/octet-stream") = "video/x-msvideo"
    ∨ (if ext = "mp4" then "video/mp4"
     else if ext = "mkv" then "video/x-matroska"
     else if ext = "webm" then "video/webm"
     else if ext = "mov" then "video/quicktime"
     else if ext = "avi" then "video/x-msvideo"
     else "application/octet-stream") = "application/octet-stream" := by
  repeat' split
  all_goals simp

/-- C8, amended: getMimeType is total over all strings with its image inside
the fixed six-value table; the lookup key is the last '.'-separated segment
of the filename, lowercased — which for a dotless filename is the whole name,
so "mp4" maps to "video/mp4" while any unrecognized or empty segment maps to
"application/octet-stream"; the spec's two scenario inputs behave as stated. -/
theorem c8_mime_lookup :
    (∀ s : String, getMimeType s = "video/mp4" ∨ getMimeType s = "video/x-matroska"
      ∨ getMimeType s = "video/webm" ∨ getMimeType s = "video/quicktime"
      ∨ getMimeType s = "video/x-msvideo" ∨ getMimeType s = "application/octet-stream")
    ∧ getMimeType "clip.mkv" = "video/x-matroska"
    ∧ getMimeType "clip.xyz" = "application/octet-stream"
    ∧ getMimeType "CLIP.MKV" = "video/x-matroska"
    ∧ getMimeType "a.b.mp4" = "video/mp4"
    ∧ getMimeType "movie.webm" = "video/webm"
    ∧ getMimeType "movie.mov" = "video/quicktime"
    ∧ getMimeType "movie.avi" = "video/x-msvideo"
    ∧ getMimeType "noext" = "application/octet-stream"
    ∧ getMimeType "" = "application/octet-stream"
    ∧ getMimeType "mp4" = "video/mp4" := by
  refine ⟨?_, by decide, by decide, by decide, by decide, by decide, by decide, by decide,
    by decide, by decide, by decide⟩
  intro s
  unfold getMimeType
  cases h : (splitOnChar '.' s.data).getLast? with
  | none => simp
  | some e => exact mimeTable_cases (String.mk (e.map Char.toLower))

/-- C9: on every run that reaches the success record, the last record sent is
success carrying exactly the configured public domain, a slash, and the
percent-encoded object name. -/
theorem c9_success_link (cfg : Config) (env : Env) (body : ReqBody) (name : String)
    (h1 : env.parsed = some body) (h2 : body.customName = some name)
    (h3 : (truthy body.remoteUrl && truthy body.customName) = true)
    (h4 : (env.fetchRes.ok && env.fetchRes.hasBody) = true)
    (h5 : env.run.ok = true) :
    (sends (handlerTrace cfg env)).getLast?
      = some (.success (cfg.publicDomain ++ "/" ++ encodeURIComponent name)) := by
  rw [sends_handlerTrace, List.getLast?_concat]
  unfold terminalMsg
  rw [h1]
  rw [h2] at h3
  simp [h2, h3, h4, h5]

/-- C9 witness: a concrete successful run whose object name needs encoding,
with the resulting link evaluated to its literal percent-encoded form. -/
theorem c9_success_link_witness :
    (sends (handlerTrace cfgEx envSuccess)).getLast?
        = some (.success (cfgEx.publicDomain ++ "/" ++ encodeURIComponent "my clip.mp4"))
    ∧ cfgEx.publicDomain ++ "/" ++ encodeURIComponent "my clip.mp4"
        = "https://pub.example.com/my%20clip.mp4" :=
  ⟨c9_success_link cfgEx envSuccess
      ⟨some "http://files.example.com/a.mp4", some "my clip.mp4"⟩ "my clip.mp4"
      rfl rfl (by decide) rfl rfl,
   by decide⟩

/-- C10: every authenticated POST to /api/upload receives an HTTP response
with status 200 and content type application/x-ndjson carrying the streaming
body, whatever the run's outcome; and whenever the run does not succeed, the
failure is reported as an in-body error record that is the last record of the
stream, never as an HTTP error status. -/
theorem c10_ndjson_envelope (cfg : Config) (r : HttpReq)
    (h1 : r.method = "POST") (h2 : r.path = "/api/upload")
    (h3 : r.passParam = some cfg.adminPassword) :
    (serve cfg r).status = 200
    ∧ (serve cfg r).contentType = some "application/x-ndjson"
    ∧ (serve cfg r).body = .stream (handlerTrace cfg r.env)
    ∧ (successPath r.env = false →
        ∃ e, terminalMsg cfg r.env = Msg.error e
          ∧ (sends (handlerTrace cfg r.env)).getLast? = some (Msg.error e)) := by
  have hs : serve cfg r
      = ⟨200, some "application/x-ndjson", .stream (handlerTrace cfg r.env)⟩ := by
    unfold serve
    rw [h1, h2, h3]
    simp
  refine ⟨by rw [hs], by rw [hs], by rw [hs], ?_⟩
  intro hfail
  obtain ⟨e, he⟩ := terminalMsg_error_of_failure cfg r.env hfail
  refine ⟨e, he, ?_⟩
  rw [sends_handlerTrace, List.getLast?_concat, he]

/-- A concrete authenticated upload request whose fetch fails. -/
def reqEx : HttpReq := ⟨"POST", "/api/upload", some "123", envFetchFail⟩

/-- C10 witness: the concrete authenticated request still gets status 200
with the NDJSON content type, and its failure appears as the final in-body
error record. -/
theorem c10_ndjson_envelope_witness :
    (serve cfgEx reqEx).status = 200
    ∧ (serve cfgEx reqEx).contentType = some "application/x-ndjson"
    ∧ (serve cfgEx reqEx).body = .stream (handlerTrace cfgEx reqEx.env)
    ∧ (successPath reqEx.env = false →
        ∃ e, terminalMsg cfgEx reqEx.env = Msg.error e
          ∧ (sends (handlerTrace cfgEx reqEx.env)).getLast? = some (Msg.error e)) :=
  c10_ndjson_envelope cfgEx reqEx rfl rfl rfl
